import Mathlib

/-!
Shallow embedding of `main.go` of the `uh-ring-stats` repository: the
metric data model, the static metric registry, the remote-write
forwarding path (`pushMetrics` with its per-metric high-water marks and
the global latest-timestamp scalar), the terminal renderer
(`getMetricValue`, `displayMetric`), and the server-mode fetch cycle
(`fetchAndPushMetrics`).

Modelling conventions:
* Go `float64` metric values are carried as `Int`: the program performs
  no arithmetic on metric values, it only copies them into samples and
  into display strings, so the numeric type is irrelevant to the
  properties proved here.
* Go `int64` timestamps are carried as `Int`; the epoch values involved
  stay far below 2^63, so two's-complement wraparound never occurs on
  the operations modelled (a single `* 1000`).
* A `json.RawMessage` payload is modelled by the outcome of each
  `json.Unmarshal` the program may attempt on it (`RawObject`): `none`
  models an unmarshal error, `some r` a successful decode into `r`.
* The Go maps `lastPushedTimestamp` (default value 0 for missing keys)
  is modelled as a total function `String → Int`.
* `fmt.Printf` output of `displayMetric` is modelled as the list of
  printed strings, in print order; an empty list models "no output".
-/

namespace UhRing

/-- `TimeValue` struct of `main.go` (one reading of a time-series metric). -/
structure TimeValue where
  value : Int
  timestamp : Int
deriving DecidableEq

/-- `TimeSeriesMetric` struct of `main.go`. -/
structure TimeSeriesMetric where
  dayStartTimestamp : Int
  title : String
  values : List TimeValue
  lastReading : Int
  unit : String
  subtitle : String
  avg : Int
  total : Int
deriving DecidableEq

/-- `SimpleMetric` struct of `main.go`; `value` is a `*float64`, so a
present-but-null JSON value decodes to `none`. -/
structure SimpleMetric where
  value : Option Int
  title : String
  dayStartTimestamp : Int
deriving DecidableEq

/-- `SleepMetric` struct of `main.go`. -/
structure SleepMetric where
  dayStartTimestamp : Int
  score : Option Int
  totalSleep : Option Int
  efficiency : Option Int
  timeInBed : Option Int
  deepSleep : Option Int
  lightSleep : Option Int
  remSleep : Option Int
deriving DecidableEq

/-- A `json.RawMessage` payload, modelled by the outcome of each
`json.Unmarshal` the program may attempt on it: `none` is an unmarshal
error, `some r` a successful decode into the given struct. -/
structure RawObject where
  asTimeSeries : Option TimeSeriesMetric
  asSimple : Option SimpleMetric
  asSleep : Option SleepMetric
deriving DecidableEq

/-- `Metric` struct of `main.go`: one polymorphic metric envelope. -/
structure Metric where
  type : String
  object : RawObject
deriving DecidableEq

/-- `MetricConfig` struct of `main.go`. -/
structure MetricConfig where
  metricType : String
  field : String
  displayName : String
  unit : String
  isDuration : Bool
  prometheusName : String
deriving DecidableEq

/-- `metricRegistry` of `main.go`, entry for entry.  Constructor field
order: metricType, field, displayName, unit, isDuration, prometheusName;
fields a Go literal omits take the Go zero value (`""` / `false`). -/
def metricRegistry : String → Option MetricConfig
  | "hr" => some ⟨"timeseries", "last", "HEART RATE", "BPM", false, "ultrahuman_heart_rate_bpm"⟩
  | "hrv" => some ⟨"timeseries", "last", "HEART RATE VARIABILITY", "ms", false, "ultrahuman_hrv_ms"⟩
  | "temp" => some ⟨"timeseries", "last", "SKIN TEMPERATURE", "°C", false, "ultrahuman_skin_temperature_celsius"⟩
  | "spo2" => some ⟨"timeseries", "avg", "SPO2 (Blood Oxygen)", "%", false, "ultrahuman_spo2_percent"⟩
  | "steps" => some ⟨"timeseries", "total", "STEPS", "", false, "ultrahuman_steps_total"⟩
  | "movement_index" => some ⟨"simple", "", "MOVEMENT INDEX", "", false, "ultrahuman_movement_index"⟩
  | "active_minutes" => some ⟨"simple", "", "ACTIVE MINUTES", "min", false, "ultrahuman_active_minutes"⟩
  | "recovery_index" => some ⟨"simple", "", "RECOVERY INDEX", "", false, "ultrahuman_recovery_index"⟩
  | "recovery" => some ⟨"simple", "", "RECOVERY", "", false, "ultrahuman_recovery"⟩
  | "vo2_max" => some ⟨"simple", "", "VO2 MAX", "ml/kg/min", false, "ultrahuman_vo2_max"⟩
  | "temperature_deviation" => some ⟨"simple", "", "TEMPERATURE DEVIATION", "°C", false, "ultrahuman_temperature_deviation_celsius"⟩
  | "average_body_temperature" => some ⟨"simple", "", "AVG BODY TEMP", "°C", false, "ultrahuman_avg_body_temperature_celsius"⟩
  | "sleep_score" => some ⟨"simple", "", "SLEEP SCORE", "", false, "ultrahuman_sleep_score"⟩
  | "total_sleep" => some ⟨"simple", "", "TOTAL SLEEP", "", true, "ultrahuman_total_sleep_minutes"⟩
  | "sleep_efficiency" => some ⟨"simple", "", "SLEEP EFFICIENCY", "%", false, "ultrahuman_sleep_efficiency_percent"⟩
  | "deep_sleep" => some ⟨"simple", "", "DEEP SLEEP", "", true, "ultrahuman_deep_sleep_minutes"⟩
  | "light_sleep" => some ⟨"simple", "", "LIGHT SLEEP", "", true, "ultrahuman_light_sleep_minutes"⟩
  | "rem_sleep" => some ⟨"simple", "", "REM SLEEP", "", true, "ultrahuman_rem_sleep_minutes"⟩
  | "time_in_bed" => some ⟨"simple", "", "TIME IN BED", "", true, "ultrahuman_time_in_bed_minutes"⟩
  | "sleep_rhr" => some ⟨"simple", "", "SLEEP RESTING HR", "BPM", false, "ultrahuman_sleep_rhr_bpm"⟩
  | "night_rhr" => some ⟨"simple", "", "SLEEP RESTING HR", "BPM", false, "ultrahuman_sleep_rhr_bpm"⟩
  | "avg_sleep_hrv" => some ⟨"simple", "", "SLEEP HRV", "ms", false, "ultrahuman_avg_sleep_hrv_ms"⟩
  | "hr_drop" => some ⟨"simple", "", "HR DROP (Sleep)", "BPM", false, "ultrahuman_hr_drop_bpm"⟩
  | "restorative_sleep" => some ⟨"simple", "", "RESTORATIVE SLEEP", "", false, "ultrahuman_restorative_sleep"⟩
  | "morning_alertness" => some ⟨"simple", "", "MORNING ALERTNESS", "", false, "ultrahuman_morning_alertness"⟩
  | "full_sleep_cycles" => some ⟨"simple", "", "SLEEP CYCLES", "", false, "ultrahuman_full_sleep_cycles"⟩
  | "tosses_and_turns" => some ⟨"simple", "", "TOSSES & TURNS", "", false, "ultrahuman_tosses_and_turns"⟩
  | "movements" => some ⟨"simple", "", "MOVEMENTS (Sleep)", "", false, "ultrahuman_sleep_movements"⟩
  | "glucose" => some ⟨"timeseries", "last", "GLUCOSE", "mg/dL", false, "ultrahuman_glucose_mg_dl"⟩
  | "average_glucose" => some ⟨"simple", "", "AVERAGE GLUCOSE", "mg/dL", false, "ultrahuman_avg_glucose_mg_dl"⟩
  | "glucose_variability" => some ⟨"simple", "", "GLUCOSE VARIABILITY", "%", false, "ultrahuman_glucose_variability_percent"⟩
  | "time_in_target" => some ⟨"simple", "", "TIME IN TARGET", "%", false, "ultrahuman_time_in_target_percent"⟩
  | "hba1c" => some ⟨"simple", "", "HbA1c (Estimated)", "%", false, "ultrahuman_hba1c_percent"⟩
  | "metabolic_score" => some ⟨"simple", "", "METABOLIC SCORE", "", false, "ultrahuman_metabolic_score"⟩
  | _ => none

/-- `prompb.Label`. -/
structure Label where
  name : String
  value : String
deriving DecidableEq

/-- `prompb.Sample`: the timestamp is in milliseconds. -/
structure Sample where
  value : Int
  timestamp : Int
deriving DecidableEq

/-- `prompb.TimeSeries`. -/
structure TimeSeries where
  labels : List Label
  samples : List Sample
deriving DecidableEq

/-- `buildTimeSeries` of `main.go`: one labelled series holding a single
sample. -/
def buildTimeSeries (metricName : String) (value : Int) (timestampMs : Int) : TimeSeries :=
  ⟨[⟨"__name__", metricName⟩], [⟨value, timestampMs⟩]⟩

/-- The package-level mutable state touched by the forwarding path: the
`lastPushedTimestamp` map (Go map with default value 0) and the
`globalLatestTimestamp` scalar. -/
structure PushState where
  lastPushedTimestamp : String → Int
  globalLatestTimestamp : Int

/-- The process-start state: empty map (all keys read as 0), zero scalar. -/
def initialState : PushState := ⟨fun _ => 0, 0⟩

/-- `updateGlobalTimestamp` of `main.go`, on an explicit current value. -/
def updateGlobalTimestamp (g ts : Int) : Int :=
  if ts > g then ts else g

/-- Write of one key of the `lastPushedTimestamp` map. -/
def setMark (f : String → Int) (k : String) (v : Int) : String → Int :=
  fun s => if s = k then v else f s

/-- The inner `for _, reading := range v.Values` loop of `pushMetrics`
(lines 246-256 of `main.go`): `lastTs` is the map value captured before
the loop; the conditional map update inside the loop re-reads the map. -/
def pushReadings (promName ty : String) (lastTs : Int) :
    List TimeValue → List TimeSeries → PushState → List TimeSeries × PushState
  | [], acc, st => (acc, st)
  | r :: rest, acc, st =>
    if r.timestamp ≤ lastTs then
      pushReadings promName ty lastTs rest acc st
    else
      pushReadings promName ty lastTs rest
        (acc ++ [buildTimeSeries promName r.value (r.timestamp * 1000)])
        ⟨if r.timestamp > st.lastPushedTimestamp ty
            then setMark st.lastPushedTimestamp ty r.timestamp
            else st.lastPushedTimestamp,
          updateGlobalTimestamp st.globalLatestTimestamp r.timestamp⟩

/-- One iteration of the `for _, m := range metrics` loop of
`pushMetrics` (lines 221-257 of `main.go`): registry gate, unmarshal,
the `steps` special case, then the per-reading loop. -/
def processMetric (st : PushState) (acc : List TimeSeries) (m : Metric) :
    List TimeSeries × PushState :=
  match metricRegistry m.type with
  | none => (acc, st)
  | some config =>
    if config.prometheusName = "" ∨ config.metricType ≠ "timeseries" then (acc, st)
    else
      match m.object.asTimeSeries with
      | none => (acc, st)
      | some v =>
        let lastTs := st.lastPushedTimestamp m.type
        if m.type = "steps" then
          if v.dayStartTimestamp > lastTs then
            (acc ++ [buildTimeSeries config.prometheusName v.total (v.dayStartTimestamp * 1000)],
              ⟨setMark st.lastPushedTimestamp m.type v.dayStartTimestamp,
                updateGlobalTimestamp st.globalLatestTimestamp v.dayStartTimestamp⟩)
          else (acc, st)
        else
          pushReadings config.prometheusName m.type lastTs v.values acc st

/-- The whole envelope loop of `pushMetrics`, accumulating the batch. -/
def pushMetricsLoop : List Metric → List TimeSeries → PushState → List TimeSeries × PushState
  | [], acc, st => (acc, st)
  | m :: rest, acc, st =>
    pushMetricsLoop rest (processMetric st acc m).1 (processMetric st acc m).2

/-- The pure core of `pushMetrics`: the batch it builds and the state it
leaves behind (the mutex-guarded section of lines 218-257). -/
def pushMetricsBatch (metrics : List Metric) (st : PushState) : List TimeSeries × PushState :=
  pushMetricsLoop metrics [] st

/-- The remote-write transport (`RemoteWriteClient.Write`), treated as an
external collaborator: it is given the batch and reports success or an
error. -/
def Transport : Type := List TimeSeries → Except String Unit

/-- A transport that always succeeds. -/
def okTransport : Transport := fun _ => Except.ok ()

/-- What one call of `pushMetrics` produces: its return value, the state
it leaves behind, and whether the remote-write client was invoked. -/
structure PushOutcome where
  result : Except String Unit
  finalState : PushState
  networkCalled : Bool

/-- `pushMetrics` of `main.go` (lines 211-265): nil client returns
immediately; otherwise the batch is built (mutating the marks), and the
transport is invoked only when the batch is non-empty. -/
def pushMetrics (client : Option Transport) (metrics : List Metric) (st : PushState) :
    PushOutcome :=
  match client with
  | none => ⟨Except.ok (), st, false⟩
  | some send =>
    if (pushMetricsBatch metrics st).1.isEmpty then
      ⟨Except.ok (), (pushMetricsBatch metrics st).2, false⟩
    else
      ⟨send (pushMetricsBatch metrics st).1, (pushMetricsBatch metrics st).2, true⟩

/-- `APIResponse`/`Data` of `main.go`.  `metrics` is the Go map
`map[string][]Metric` presented in its (unspecified) iteration order as
an association list. -/
structure APIResponse where
  metrics : List (String × List Metric)
  latestTimeZone : String
  error : Option String
  status : Int

/-- `fetchAndPushMetrics` of `main.go` (lines 576-598), on an
already-fetched response: an API error aborts; otherwise the loop over
the date map pushes the first iterated entry and breaks. -/
def fetchAndPushMetrics (resp : APIResponse) (client : Option Transport) (st : PushState) :
    Except String Unit × PushState :=
  match resp.error with
  | some e => (Except.error ("API error: " ++ e), st)
  | none =>
    match resp.metrics with
    | [] => (Except.ok (), st)
    | (_, ms) :: _ =>
      match (pushMetrics client ms st).result with
      | Except.error e => (Except.error ("push metrics: " ++ e), (pushMetrics client ms st).finalState)
      | Except.ok _ => (Except.ok (), (pushMetrics client ms st).finalState)

/-- `fmt.Sprintf "%.0f"` on a metric value (values are integer-modelled,
see the file header). -/
def formatFloat0 (v : Int) : String := toString v

/-- `fmt.Sprintf "%.1f"` on a metric value: one decimal place;
integer-modelled values render with a trailing `.0`. -/
def formatFloat1 (v : Int) : String := toString v ++ ".0"

/-- `formatDuration` of `main.go`; Go `/` and `%` on ints truncate
toward zero, hence `tdiv`/`tmod`. -/
def formatDuration (minutes : Int) : String :=
  if minutes.tdiv 60 > 0 then
    toString (minutes.tdiv 60) ++ "h " ++ toString (minutes.tmod 60) ++ "m"
  else
    toString (minutes.tmod 60) ++ "m"

/-- `formatTimestamp` of `main.go` renders `time.Unix(ts, 0)` as a local
wall-clock "15:04" string; the digits depend on the host timezone, which
is outside the model, so the rendering is abstracted to the decimal
timestamp.  No claim depends on its digits. -/
def formatTimestamp (ts : Int) : String := toString ts

/-- `printSection` of `main.go`. -/
def printSection (title : String) : String := "\n  " ++ title ++ "\n"

/-- `getMetricValue` of `main.go` (lines 315-386). -/
def getMetricValue : List Metric → String → String
  | [], _ => "not found"
  | m :: rest, metricType =>
    if m.type ≠ metricType then getMetricValue rest metricType
    else if metricType = "sleep" then
      match m.object.asSleep with
      | none => "null"
      | some v =>
        match v.score with
        | some s => formatFloat0 s
        | none => "null"
    else if metricType = "motion" then
      match m.object.asTimeSeries with
      | none => "null"
      | some v => toString v.values.length
    else
      match metricRegistry metricType with
      | none => "not found"
      | some config =>
        if config.metricType = "timeseries" then
          match m.object.asTimeSeries with
          | none => "null"
          | some v =>
            let value : Int :=
              if config.field = "last" then v.lastReading
              else if config.field = "avg" then v.avg
              else if config.field = "total" then v.total
              else 0
            if config.unit = "°C" then formatFloat1 value else formatFloat0 value
        else if config.metricType = "simple" then
          match m.object.asSimple with
          | none => "null"
          | some v =>
            match v.value with
            | none => "null"
            | some x =>
              if config.isDuration then formatDuration x
              else if config.unit = "°C" ∨ metricType = "hba1c" ∨
                  metricType = "glucose_variability" ∨ metricType = "vo2_max" then
                formatFloat1 x
              else formatFloat0 x
        else getMetricValue rest metricType

/-- `displayMetric` of `main.go` (lines 404-515), as the list of printed
strings; `[]` models "nothing printed". -/
def displayMetric (m : Metric) : List String :=
  if m.type = "sleep" then
    match m.object.asSleep with
    | none => []
    | some v =>
      if v.score = none ∧ v.totalSleep = none then []
      else
        [printSection "SLEEP"]
        ++ (match v.score with
            | some s => ["      Score: " ++ formatFloat0 s ++ "\n"]
            | none => [])
        ++ (match v.totalSleep with
            | some t => ["      Total: " ++ formatDuration t ++ "\n"]
            | none => [])
        ++ (match v.efficiency with
            | some e => ["      Efficiency: " ++ formatFloat0 e ++ "%\n"]
            | none => [])
  else if m.type = "motion" then
    match m.object.asTimeSeries with
    | none => []
    | some v =>
      if v.values.length = 0 then []
      else [printSection "MOTION", "      Readings: " ++ toString v.values.length ++ "\n"]
  else if m.type = "steps" then
    match m.object.asTimeSeries with
    | none => []
    | some v =>
      if v.total > 0 ∨ v.avg > 0 then
        [printSection "STEPS",
          "      Total: " ++ formatFloat0 v.total ++ " | Avg: " ++ formatFloat0 v.avg ++ "\n"]
      else []
  else
    match metricRegistry m.type with
    | none => []
    | some config =>
      if config.metricType = "timeseries" then
        match m.object.asTimeSeries with
        | none => []
        | some v =>
          if v.title = "" then []
          else
            [printSection config.displayName]
            ++ (if config.field = "last" then
                  if config.unit = "°C" then
                    ["      Last: " ++ formatFloat1 v.lastReading
                      ++ (if config.unit = "" then v.unit else config.unit) ++ "\n"]
                  else
                    ["      Last: " ++ formatFloat0 v.lastReading ++ " "
                      ++ (if config.unit = "" then v.unit else config.unit) ++ "\n"]
                else if config.field = "avg" then
                  ["      Average: " ++ formatFloat0 v.avg
                    ++ (if config.unit = "" then v.unit else config.unit) ++ "\n"]
                else if config.field = "total" then
                  ["      Total: " ++ formatFloat0 v.total ++ "\n"]
                else [])
            ++ v.values.map (fun r =>
                if config.unit = "°C" then
                  "      - " ++ formatFloat1 r.value
                    ++ (if config.unit = "" then v.unit else config.unit)
                    ++ " @ " ++ formatTimestamp r.timestamp ++ "\n"
                else if config.unit = "%" ∨ m.type = "spo2" then
                  "      - " ++ formatFloat0 r.value ++ "% @ "
                    ++ formatTimestamp r.timestamp ++ "\n"
                else
                  "      - " ++ formatFloat0 r.value ++ " "
                    ++ (if config.unit = "" then v.unit else config.unit)
                    ++ " @ " ++ formatTimestamp r.timestamp ++ "\n")
      else if config.metricType = "simple" then
        match m.object.asSimple with
        | none => []
        | some v =>
          match v.value with
          | none => []
          | some x =>
            [printSection config.displayName]
            ++ (if config.isDuration then
                  ["      Duration: " ++ formatDuration x ++ "\n"]
                else if config.unit = "°C" then
                  ["      Value: " ++ formatFloat1 x ++ config.unit ++ "\n"]
                else if config.unit = "%" then
                  ["      Value: " ++ formatFloat0 x ++ "%\n"]
                else if config.unit = "ml/kg/min" ∨ m.type = "hba1c" ∨
                    m.type = "glucose_variability" then
                  ["      Value: " ++ formatFloat1 x ++ " " ++ config.unit ++ "\n"]
                else if config.unit ≠ "" then
                  ["      Value: " ++ formatFloat0 x ++ " " ++ config.unit ++ "\n"]
                else
                  ["      Score: " ++ formatFloat0 x ++ "\n"])
      else []

/-!  Specification observers: vocabulary used by the theorem statements
to describe what the code above computes.  They are defined in terms of
the reading list and the captured mark, and the theorems below prove
that the source-translated functions agree with them. -/

/-- The wire samples the per-reading loop emits for a reading list,
given the mark captured before the loop: exactly the readings whose
timestamp strictly exceeds the mark, in list order, each as a one-sample
series with millisecond timestamp `epochSeconds * 1000`. -/
def emitted (promName : String) (lastTs : Int) (values : List TimeValue) : List TimeSeries :=
  (values.filter (fun r => lastTs < r.timestamp)).map
    (fun r => buildTimeSeries promName r.value (r.timestamp * 1000))

/-- The epoch-seconds timestamps of the readings the per-reading loop
forwards. -/
def emittedTs (lastTs : Int) (values : List TimeValue) : List Int :=
  (values.filter (fun r => lastTs < r.timestamp)).map (fun r => r.timestamp)

/-- Left fold of `max` with seed `a`: the maximum of `a` and a list. -/
def maxList (a : Int) : List Int → Int
  | [] => a
  | x :: l => maxList (max a x) l

/-- The epoch-seconds values of the samples one envelope contributes to
a batch (the `steps` day-start, or the forwarded readings' timestamps). -/
def envelopeEpochs (st : PushState) (m : Metric) : List Int :=
  match metricRegistry m.type with
  | none => []
  | some config =>
    if config.prometheusName = "" ∨ config.metricType ≠ "timeseries" then []
    else
      match m.object.asTimeSeries with
      | none => []
      | some v =>
        if m.type = "steps" then
          if v.dayStartTimestamp > st.lastPushedTimestamp m.type then [v.dayStartTimestamp]
          else []
        else emittedTs (st.lastPushedTimestamp m.type) v.values

/-- The epoch-seconds values of every sample a whole batch forwards, in
emission order. -/
def batchEpochs : List Metric → PushState → List Int
  | [], _ => []
  | m :: rest, st => envelopeEpochs st m ++ batchEpochs rest (processMetric st [] m).2

/-- The state after a sequence of `pushMetrics` batches. -/
def runBatchStates : List (List Metric) → PushState → PushState
  | [], st => st
  | ms :: rest, st => runBatchStates rest (pushMetricsBatch ms st).2

/-- The epoch-seconds values forwarded across a sequence of batches. -/
def seqEpochs : List (List Metric) → PushState → List Int
  | [], _ => []
  | ms :: rest, st => batchEpochs ms st ++ seqEpochs rest (pushMetricsBatch ms st).2

/-- The millisecond timestamps carried by one wire series. -/
def sampleEpochMs (t : TimeSeries) : List Int :=
  t.samples.map (fun s => s.timestamp)

/-- A wire sample originates from an envelope's decoded record: its
value and millisecond timestamp are copied from the record, the
timestamp being the sensor epoch-seconds (the reading's own timestamp,
or the day-start for `steps`) times 1000. -/
def sampleFromRecord (m : Metric) (t : TimeSeries) : Prop :=
  ∃ config, metricRegistry m.type = some config ∧
    ∃ v, m.object.asTimeSeries = some v ∧
      ((m.type = "steps" ∧
          t = buildTimeSeries config.prometheusName v.total (v.dayStartTimestamp * 1000)) ∨
        (m.type ≠ "steps" ∧
          ∃ r, r ∈ v.values ∧
            t = buildTimeSeries config.prometheusName r.value (r.timestamp * 1000)))

/-!  Concrete inputs used by witnesses and counterexamples. -/

/-- A well-formed `hr` payload with readings at epochs 1000 and 1005
(the end-to-end scenario of the spec). -/
def vHr1 : TimeSeriesMetric := ⟨0, "HR", [⟨70, 1000⟩, ⟨72, 1005⟩], 72, "BPM", "", 71, 0⟩

/-- A second-cycle `hr` payload overlapping `vHr1` and extending it by a
reading at epoch 1010. -/
def vHr2 : TimeSeriesMetric :=
  ⟨0, "HR", [⟨70, 1000⟩, ⟨72, 1005⟩, ⟨75, 1010⟩], 75, "BPM", "", 72, 0⟩

/-- An `hr` envelope carrying `vHr1`. -/
def mHr1 : Metric := ⟨"hr", ⟨some vHr1, none, none⟩⟩

/-- An `hr` envelope carrying `vHr2`. -/
def mHr2 : Metric := ⟨"hr", ⟨some vHr2, none, none⟩⟩

/-- An `hr` payload with a single reading at epoch 10. -/
def vHrA : TimeSeriesMetric := ⟨0, "HR", [⟨70, 10⟩], 70, "BPM", "", 70, 0⟩

/-- A second `hr` payload whose single reading shares epoch 10. -/
def vHrB : TimeSeriesMetric := ⟨0, "HR", [⟨71, 10⟩], 71, "BPM", "", 71, 0⟩

/-- Envelope carrying `vHrA`. -/
def mHrA : Metric := ⟨"hr", ⟨some vHrA, none, none⟩⟩

/-- Envelope carrying `vHrB`. -/
def mHrB : Metric := ⟨"hr", ⟨some vHrB, none, none⟩⟩

/-- An `hr` payload whose readings are unsorted and contain a duplicated
timestamp. -/
def vHrDup : TimeSeriesMetric :=
  ⟨0, "HR", [⟨1, 200⟩, ⟨2, 100⟩, ⟨3, 100⟩], 3, "BPM", "", 2, 0⟩

/-- Envelope carrying `vHrDup`. -/
def mHrDup : Metric := ⟨"hr", ⟨some vHrDup, none, none⟩⟩

/-- A `steps` payload: day-start 86400, running total 500 (the spec's
end-to-end scenario). -/
def vSteps : TimeSeriesMetric := ⟨86400, "Steps", [], 0, "", "", 0, 500⟩

/-- A `steps` envelope carrying `vSteps`. -/
def mSteps : Metric := ⟨"steps", ⟨some vSteps, none, none⟩⟩

/-- A scalar `recovery` envelope whose payload decodes with a
present-but-null value field (`*float64` is nil). -/
def mRecNull : Metric := ⟨"recovery", ⟨none, some ⟨none, "RECOVERY", 0⟩, none⟩⟩

/-- A scalar `recovery` envelope whose payload is malformed: every
unmarshal fails. -/
def mRecBad : Metric := ⟨"recovery", ⟨none, none, none⟩⟩

/-- An envelope whose wire type has no registry entry. -/
def mUnknown : Metric := ⟨"unknown_type", ⟨some vHr1, some ⟨some 1, "", 0⟩, none⟩⟩

/-- A composite-sleep envelope whose decoded record has both `score` and
`totalSleep` absent. -/
def mSleepEmpty : Metric :=
  ⟨"sleep", ⟨none, none, some ⟨86400, none, none, some 90, some 400, none, none, none⟩⟩⟩

/-- A response holding two dates, to exercise the first-date-only loop
of `fetchAndPushMetrics`. -/
def respTwoDates : APIResponse :=
  ⟨[("2026-10-10", [mHr1]), ("2026-10-11", [mSteps])], "Asia/Kolkata", none, 200⟩

/-!  Helper lemmas. -/

theorem pushState_ext {s1 s2 : PushState}
    (h1 : ∀ s, s1.lastPushedTimestamp s = s2.lastPushedTimestamp s)
    (h2 : s1.globalLatestTimestamp = s2.globalLatestTimestamp) : s1 = s2 := by
  cases s1 with
  | mk f g =>
    cases s2 with
    | mk f2 g2 =>
      exact congr (congrArg PushState.mk (funext h1)) h2

theorem updateGlobalTimestamp_eq_max (g ts : Int) : updateGlobalTimestamp g ts = max g ts := by
  unfold updateGlobalTimestamp
  rcases le_or_lt ts g with h | h
  · rw [if_neg (not_lt.mpr h), max_eq_left h]
  · rw [if_pos h, max_eq_right h.le]

theorem maxList_cons (a x : Int) (l : List Int) : maxList a (x :: l) = maxList (max a x) l := rfl

theorem maxList_le_self (a : Int) (l : List Int) : a ≤ maxList a l := by
  induction l generalizing a with
  | nil => exact le_refl a
  | cons x l ih => exact le_trans (le_max_left a x) (ih (max a x))

theorem mem_le_maxList (a : Int) (l : List Int) : ∀ x ∈ l, x ≤ maxList a l := by
  induction l generalizing a with
  | nil => intro x hx; cases hx
  | cons y l ih =>
    intro x hx
    rcases List.mem_cons.mp hx with h | h
    · subst h
      exact le_trans (le_max_right a x) (maxList_le_self (max a x) l)
    · exact ih (max a y) x h

theorem maxList_eq_or_mem (a : Int) (l : List Int) : maxList a l = a ∨ maxList a l ∈ l := by
  induction l generalizing a with
  | nil => exact Or.inl rfl
  | cons x l ih =>
    rcases ih (max a x) with h | h
    · rcases max_choice a x with hc | hc
      · exact Or.inl (by rw [maxList_cons, h, hc])
      · refine Or.inr ?_
        rw [maxList_cons, h, hc]
        exact List.mem_cons_self x l
    · exact Or.inr (List.mem_cons_of_mem x (by rw [maxList_cons]; exact h))

theorem maxList_append (a : Int) (l1 l2 : List Int) :
    maxList a (l1 ++ l2) = maxList (maxList a l1) l2 := by
  induction l1 generalizing a with
  | nil => rfl
  | cons x l ih => exact ih (max a x)

theorem emitted_cons_pos {lastTs : Int} {r : TimeValue} (h : lastTs < r.timestamp)
    (promName : String) (rest : List TimeValue) :
    emitted promName lastTs (r :: rest) =
      buildTimeSeries promName r.value (r.timestamp * 1000) :: emitted promName lastTs rest := by
  simp [emitted, List.filter_cons, h]

theorem emitted_cons_neg {lastTs : Int} {r : TimeValue} (h : ¬ lastTs < r.timestamp)
    (promName : String) (rest : List TimeValue) :
    emitted promName lastTs (r :: rest) = emitted promName lastTs rest := by
  simp [emitted, List.filter_cons, h]

theorem emittedTs_cons_pos {lastTs : Int} {r : TimeValue} (h : lastTs < r.timestamp)
    (rest : List TimeValue) :
    emittedTs lastTs (r :: rest) = r.timestamp :: emittedTs lastTs rest := by
  simp [emittedTs, List.filter_cons, h]

theorem emittedTs_cons_neg {lastTs : Int} {r : TimeValue} (h : ¬ lastTs < r.timestamp)
    (rest : List TimeValue) :
    emittedTs lastTs (r :: rest) = emittedTs lastTs rest := by
  simp [emittedTs, List.filter_cons, h]

theorem lt_of_mem_emittedTs {lastTs t : Int} {values : List TimeValue}
    (h : t ∈ emittedTs lastTs values) : lastTs < t := by
  simp only [emittedTs, List.mem_map, List.mem_filter, decide_eq_true_eq] at h
  obtain ⟨r, ⟨_, hr⟩, rfl⟩ := h
  exact hr

theorem pushReadings_fst (promName ty : String) (lastTs : Int) :
    ∀ (values : List TimeValue) (acc : List TimeSeries) (st : PushState),
      (pushReadings promName ty lastTs values acc st).1 = acc ++ emitted promName lastTs values := by
  intro values
  induction values with
  | nil => intro acc st; simp [pushReadings, emitted]
  | cons r rest ih =>
    intro acc st
    by_cases h : r.timestamp ≤ lastTs
    · rw [show pushReadings promName ty lastTs (r :: rest) acc st =
            pushReadings promName ty lastTs rest acc st from by
          simp only [pushReadings]; rw [if_pos h]]
      rw [ih, emitted_cons_neg (not_lt.mpr h)]
    · rw [show pushReadings promName ty lastTs (r :: rest) acc st =
            pushReadings promName ty lastTs rest
              (acc ++ [buildTimeSeries promName r.value (r.timestamp * 1000)])
              ⟨if r.timestamp > st.lastPushedTimestamp ty
                  then setMark st.lastPushedTimestamp ty r.timestamp
                  else st.lastPushedTimestamp,
                updateGlobalTimestamp st.globalLatestTimestamp r.timestamp⟩ from by
          simp only [pushReadings]; rw [if_neg h]]
      rw [ih, emitted_cons_pos (not_le.mp h)]
      simp

theorem pushReadings_marks (promName ty : String) (lastTs : Int) :
    ∀ (values : List TimeValue) (acc : List TimeSeries) (st : PushState) (s : String),
      (pushReadings promName ty lastTs values acc st).2.lastPushedTimestamp s =
        if s = ty then maxList (st.lastPushedTimestamp ty) (emittedTs lastTs values)
        else st.lastPushedTimestamp s := by
  intro values
  induction values with
  | nil =>
    intro acc st s
    by_cases h : s = ty
    · rw [if_pos h, h]; rfl
    · rw [if_neg h]; rfl
  | cons r rest ih =>
    intro acc st s
    by_cases h : r.timestamp ≤ lastTs
    · rw [show pushReadings promName ty lastTs (r :: rest) acc st =
            pushReadings promName ty lastTs rest acc st from by
          simp only [pushReadings]; rw [if_pos h]]
      rw [ih, emittedTs_cons_neg (not_lt.mpr h)]
    · rw [show pushReadings promName ty lastTs (r :: rest) acc st =
            pushReadings promName ty lastTs rest
              (acc ++ [buildTimeSeries promName r.value (r.timestamp * 1000)])
              ⟨if r.timestamp > st.lastPushedTimestamp ty
                  then setMark st.lastPushedTimestamp ty r.timestamp
                  else st.lastPushedTimestamp,
                updateGlobalTimestamp st.globalLatestTimestamp r.timestamp⟩ from by
          simp only [pushReadings]; rw [if_neg h]]
      rw [ih, emittedTs_cons_pos (not_le.mp h), maxList_cons]
      have hmark :
          (PushState.mk
            (if r.timestamp > st.lastPushedTimestamp ty
                then setMark st.lastPushedTimestamp ty r.timestamp
                else st.lastPushedTimestamp)
            (updateGlobalTimestamp st.globalLatestTimestamp r.timestamp)).lastPushedTimestamp ty
            = max (st.lastPushedTimestamp ty) r.timestamp := by
        by_cases hgt : r.timestamp > st.lastPushedTimestamp ty
        · show (if r.timestamp > st.lastPushedTimestamp ty
              then setMark st.lastPushedTimestamp ty r.timestamp
              else st.lastPushedTimestamp) ty = _
          rw [if_pos hgt]
          show (if ty = ty then r.timestamp else st.lastPushedTimestamp ty) = _
          rw [if_pos rfl, max_eq_right hgt.le]
        · show (if r.timestamp > st.lastPushedTimestamp ty
              then setMark st.lastPushedTimestamp ty r.timestamp
              else st.lastPushedTimestamp) ty = _
          rw [if_neg hgt, max_eq_left (not_lt.mp hgt)]
      by_cases hs : s = ty
      · rw [if_pos hs, if_pos hs, hmark]
      · rw [if_neg hs, if_neg hs]
        show (if r.timestamp > st.lastPushedTimestamp ty
            then setMark st.lastPushedTimestamp ty r.timestamp
            else st.lastPushedTimestamp) s = _
        by_cases hgt : r.timestamp > st.lastPushedTimestamp ty
        · rw [if_pos hgt]
          show (if s = ty then r.timestamp else st.lastPushedTimestamp s) = _
          rw [if_neg hs]
        · rw [if_neg hgt]

theorem pushReadings_global (promName ty : String) (lastTs : Int) :
    ∀ (values : List TimeValue) (acc : List TimeSeries) (st : PushState),
      (pushReadings promName ty lastTs values acc st).2.globalLatestTimestamp =
        maxList st.globalLatestTimestamp (emittedTs lastTs values) := by
  intro values
  induction values with
  | nil => intro acc st; rfl
  | cons r rest ih =>
    intro acc st
    by_cases h : r.timestamp ≤ lastTs
    · rw [show pushReadings promName ty lastTs (r :: rest) acc st =
            pushReadings promName ty lastTs rest acc st from by
          simp only [pushReadings]; rw [if_pos h]]
      rw [ih, emittedTs_cons_neg (not_lt.mpr h)]
    · rw [show pushReadings promName ty lastTs (r :: rest) acc st =
            pushReadings promName ty lastTs rest
              (acc ++ [buildTimeSeries promName r.value (r.timestamp * 1000)])
              ⟨if r.timestamp > st.lastPushedTimestamp ty
                  then setMark st.lastPushedTimestamp ty r.timestamp
                  else st.lastPushedTimestamp,
                updateGlobalTimestamp st.globalLatestTimestamp r.timestamp⟩ from by
          simp only [pushReadings]; rw [if_neg h]]
      rw [ih, emittedTs_cons_pos (not_le.mp h), maxList_cons]
      show maxList (updateGlobalTimestamp st.globalLatestTimestamp r.timestamp) _ = _
      rw [updateGlobalTimestamp_eq_max]

theorem pushReadings_snd_acc (promName ty : String) (lastTs : Int) (values : List TimeValue)
    (acc acc2 : List TimeSeries) (st : PushState) :
    (pushReadings promName ty lastTs values acc st).2 =
      (pushReadings promName ty lastTs values acc2 st).2 := by
  refine pushState_ext (fun s => ?_) ?_
  · rw [pushReadings_marks, pushReadings_marks]
  · rw [pushReadings_global, pushReadings_global]

theorem processMetric_no_entry (st : PushState) (acc : List TimeSeries) (m : Metric)
    (h : metricRegistry m.type = none) : processMetric st acc m = (acc, st) := by
  unfold processMetric
  rw [h]

theorem processMetric_not_forwarded (st : PushState) (acc : List TimeSeries) (m : Metric)
    (config : MetricConfig) (hreg : metricRegistry m.type = some config)
    (h : config.prometheusName = "" ∨ config.metricType ≠ "timeseries") :
    processMetric st acc m = (acc, st) := by
  unfold processMetric
  simp only [hreg]
  rw [if_pos h]

theorem processMetric_no_decode (st : PushState) (acc : List TimeSeries) (m : Metric)
    (config : MetricConfig) (hreg : metricRegistry m.type = some config)
    (hgate : ¬ (config.prometheusName = "" ∨ config.metricType ≠ "timeseries"))
    (hdec : m.object.asTimeSeries = none) :
    processMetric st acc m = (acc, st) := by
  unfold processMetric
  simp only [hreg, hdec]
  rw [if_neg hgate]

theorem processMetric_steps (st : PushState) (acc : List TimeSeries) (m : Metric)
    (v : TimeSeriesMetric) (hty : m.type = "steps") (hdec : m.object.asTimeSeries = some v) :
    processMetric st acc m =
      if v.dayStartTimestamp > st.lastPushedTimestamp "steps" then
        (acc ++ [buildTimeSeries "ultrahuman_steps_total" v.total (v.dayStartTimestamp * 1000)],
          ⟨setMark st.lastPushedTimestamp "steps" v.dayStartTimestamp,
            updateGlobalTimestamp st.globalLatestTimestamp v.dayStartTimestamp⟩)
      else (acc, st) := by
  unfold processMetric
  rw [hty]
  simp only [show metricRegistry "steps" =
      some ⟨"timeseries", "total", "STEPS", "", false, "ultrahuman_steps_total"⟩ from rfl, hdec]
  rw [if_neg (by decide), if_pos trivial]

theorem processMetric_timeseries (st : PushState) (acc : List TimeSeries) (m : Metric)
    (config : MetricConfig) (v : TimeSeriesMetric)
    (hreg : metricRegistry m.type = some config)
    (hgate : ¬ (config.prometheusName = "" ∨ config.metricType ≠ "timeseries"))
    (hsteps : ¬ m.type = "steps") (hdec : m.object.asTimeSeries = some v) :
    processMetric st acc m =
      pushReadings config.prometheusName m.type (st.lastPushedTimestamp m.type)
        v.values acc st := by
  unfold processMetric
  simp only [hreg, hdec]
  rw [if_neg hgate, if_neg hsteps]

theorem processMetric_acc (st : PushState) (acc : List TimeSeries) (m : Metric) :
    processMetric st acc m =
      (acc ++ (processMetric st [] m).1, (processMetric st [] m).2) := by
  cases hreg : metricRegistry m.type with
  | none =>
    rw [processMetric_no_entry st acc m hreg, processMetric_no_entry st [] m hreg]
    simp
  | some config =>
    by_cases hgate : config.prometheusName = "" ∨ config.metricType ≠ "timeseries"
    · rw [processMetric_not_forwarded st acc m config hreg hgate,
        processMetric_not_forwarded st [] m config hreg hgate]
      simp
    · cases hdec : m.object.asTimeSeries with
      | none =>
        rw [processMetric_no_decode st acc m config hreg hgate hdec,
          processMetric_no_decode st [] m config hreg hgate hdec]
        simp
      | some v =>
        by_cases hsteps : m.type = "steps"
        · rw [processMetric_steps st acc m v hsteps hdec,
            processMetric_steps st [] m v hsteps hdec]
          by_cases hgt : v.dayStartTimestamp > st.lastPushedTimestamp "steps"
          · rw [if_pos hgt, if_pos hgt]
            simp
          · rw [if_neg hgt, if_neg hgt]
            simp
        · rw [processMetric_timeseries st acc m config v hreg hgate hsteps hdec,
            processMetric_timeseries st [] m config v hreg hgate hsteps hdec]
          rw [Prod.ext_iff]
          constructor
          · rw [pushReadings_fst, pushReadings_fst]
            simp
          · exact pushReadings_snd_acc _ _ _ _ _ _ _

theorem pushMetricsLoop_acc (ms : List Metric) :
    ∀ (acc : List TimeSeries) (st : PushState),
      pushMetricsLoop ms acc st =
        (acc ++ (pushMetricsLoop ms [] st).1, (pushMetricsLoop ms [] st).2) := by
  induction ms with
  | nil => intro acc st; simp [pushMetricsLoop]
  | cons m rest ih =>
    intro acc st
    simp only [pushMetricsLoop]
    rw [processMetric_acc st acc m]
    dsimp only
    rw [ih (acc ++ (processMetric st [] m).1) (processMetric st [] m).2,
      ih (processMetric st [] m).1 (processMetric st [] m).2]
    simp [List.append_assoc]

theorem pushMetricsBatch_cons_fst (m : Metric) (rest : List Metric) (st : PushState) :
    (pushMetricsBatch (m :: rest) st).1 =
      (processMetric st [] m).1 ++ (pushMetricsBatch rest (processMetric st [] m).2).1 := by
  show (pushMetricsLoop (m :: rest) [] st).1 = _
  simp only [pushMetricsLoop]
  rw [pushMetricsLoop_acc rest]
  rfl

theorem pushMetricsBatch_cons_snd (m : Metric) (rest : List Metric) (st : PushState) :
    (pushMetricsBatch (m :: rest) st).2 = (pushMetricsBatch rest (processMetric st [] m).2).2 := by
  show (pushMetricsLoop (m :: rest) [] st).2 = _
  simp only [pushMetricsLoop]
  rw [pushMetricsLoop_acc rest]
  rfl

theorem mem_processMetric_fst (st : PushState) (m : Metric) (t : TimeSeries)
    (h : t ∈ (processMetric st [] m).1) : sampleFromRecord m t := by
  cases hreg : metricRegistry m.type with
  | none =>
    rw [processMetric_no_entry st [] m hreg] at h
    cases h
  | some config =>
    by_cases hgate : config.prometheusName = "" ∨ config.metricType ≠ "timeseries"
    · rw [processMetric_not_forwarded st [] m config hreg hgate] at h
      cases h
    · cases hdec : m.object.asTimeSeries with
      | none =>
        rw [processMetric_no_decode st [] m config hreg hgate hdec] at h
        cases h
      | some v =>
        by_cases hsteps : m.type = "steps"
        · rw [processMetric_steps st [] m v hsteps hdec] at h
          by_cases hgt : v.dayStartTimestamp > st.lastPushedTimestamp "steps"
          · rw [if_pos hgt] at h
            simp only [List.nil_append, List.mem_singleton] at h
            have hc : some (⟨"timeseries", "total", "STEPS", "", false,
                "ultrahuman_steps_total"⟩ : MetricConfig) = some config := by
              rw [← hreg, hsteps]
              exact rfl
            have hc2 := Option.some.inj hc
            refine ⟨config, hreg, v, hdec, Or.inl ⟨hsteps, ?_⟩⟩
            rw [h, ← hc2]
          · rw [if_neg hgt] at h
            cases h
        · rw [processMetric_timeseries st [] m config v hreg hgate hsteps hdec] at h
          rw [pushReadings_fst] at h
          simp only [List.nil_append, emitted, List.mem_map, List.mem_filter,
            decide_eq_true_eq] at h
          obtain ⟨r, ⟨hrmem, _⟩, rfl⟩ := h
          exact ⟨config, hreg, v, hdec, Or.inr ⟨hsteps, r, hrmem, rfl⟩⟩

theorem mem_pushMetricsBatch (ms : List Metric) :
    ∀ (st : PushState) (t : TimeSeries), t ∈ (pushMetricsBatch ms st).1 →
      ∃ m, m ∈ ms ∧ sampleFromRecord m t := by
  induction ms with
  | nil => intro st t h; cases h
  | cons m rest ih =>
    intro st t h
    rw [pushMetricsBatch_cons_fst] at h
    rcases List.mem_append.mp h with h1 | h2
    · exact ⟨m, List.mem_cons_self m rest, mem_processMetric_fst st m t h1⟩
    · obtain ⟨m2, hmem, hrec⟩ := ih (processMetric st [] m).2 t h2
      exact ⟨m2, List.mem_cons_of_mem m hmem, hrec⟩

theorem processMetric_marks_mono (st : PushState) (acc : List TimeSeries) (m : Metric)
    (s : String) :
    st.lastPushedTimestamp s ≤ (processMetric st acc m).2.lastPushedTimestamp s := by
  cases hreg : metricRegistry m.type with
  | none => rw [processMetric_no_entry st acc m hreg]
  | some config =>
    by_cases hgate : config.prometheusName = "" ∨ config.metricType ≠ "timeseries"
    · rw [processMetric_not_forwarded st acc m config hreg hgate]
    · cases hdec : m.object.asTimeSeries with
      | none => rw [processMetric_no_decode st acc m config hreg hgate hdec]
      | some v =>
        by_cases hsteps : m.type = "steps"
        · rw [processMetric_steps st acc m v hsteps hdec]
          by_cases hgt : v.dayStartTimestamp > st.lastPushedTimestamp "steps"
          · rw [if_pos hgt]
            show st.lastPushedTimestamp s ≤ setMark st.lastPushedTimestamp "steps"
              v.dayStartTimestamp s
            unfold setMark
            by_cases hs : s = "steps"
            · rw [if_pos hs, hs]
              exact le_of_lt hgt
            · rw [if_neg hs]
          · rw [if_neg hgt]
        · rw [processMetric_timeseries st acc m config v hreg hgate hsteps hdec]
          rw [pushReadings_marks]
          by_cases hs : s = m.type
          · rw [if_pos hs, hs]
            exact maxList_le_self _ _
          · rw [if_neg hs]

theorem processMetric_global (st : PushState) (acc : List TimeSeries) (m : Metric) :
    (processMetric st acc m).2.globalLatestTimestamp =
      maxList st.globalLatestTimestamp (envelopeEpochs st m) := by
  cases hreg : metricRegistry m.type with
  | none =>
    rw [processMetric_no_entry st acc m hreg]
    simp only [envelopeEpochs, hreg]
    rfl
  | some config =>
    by_cases hgate : config.prometheusName = "" ∨ config.metricType ≠ "timeseries"
    · rw [processMetric_not_forwarded st acc m config hreg hgate]
      simp only [envelopeEpochs, hreg]
      rw [if_pos hgate]
      rfl
    · cases hdec : m.object.asTimeSeries with
      | none =>
        rw [processMetric_no_decode st acc m config hreg hgate hdec]
        simp only [envelopeEpochs, hreg, hdec]
        rw [if_neg hgate]
        rfl
      | some v =>
        by_cases hsteps : m.type = "steps"
        · rw [processMetric_steps st acc m v hsteps hdec]
          simp only [envelopeEpochs, hreg, hdec]
          rw [if_neg hgate, if_pos hsteps, hsteps]
          by_cases hgt : v.dayStartTimestamp > st.lastPushedTimestamp "steps"
          · rw [if_pos hgt, if_pos hgt]
            show updateGlobalTimestamp st.globalLatestTimestamp v.dayStartTimestamp = _
            rw [updateGlobalTimestamp_eq_max]
            rfl
          · rw [if_neg hgt, if_neg hgt]
            rfl
        · rw [processMetric_timeseries st acc m config v hreg hgate hsteps hdec]
          simp only [envelopeEpochs, hreg, hdec]
          rw [if_neg hgate, if_neg hsteps]
          rw [pushReadings_global]

theorem processMetric_sampleEpochs (st : PushState) (m : Metric) :
    (processMetric st [] m).1.map sampleEpochMs =
      (envelopeEpochs st m).map (fun e => [e * 1000]) := by
  cases hreg : metricRegistry m.type with
  | none =>
    rw [processMetric_no_entry st [] m hreg]
    simp only [envelopeEpochs, hreg]
    rfl
  | some config =>
    by_cases hgate : config.prometheusName = "" ∨ config.metricType ≠ "timeseries"
    · rw [processMetric_not_forwarded st [] m config hreg hgate]
      simp only [envelopeEpochs, hreg]
      rw [if_pos hgate]
      rfl
    · cases hdec : m.object.asTimeSeries with
      | none =>
        rw [processMetric_no_decode st [] m config hreg hgate hdec]
        simp only [envelopeEpochs, hreg, hdec]
        rw [if_neg hgate]
        rfl
      | some v =>
        by_cases hsteps : m.type = "steps"
        · rw [processMetric_steps st [] m v hsteps hdec]
          simp only [envelopeEpochs, hreg, hdec]
          rw [if_neg hgate, if_pos hsteps, hsteps]
          by_cases hgt : v.dayStartTimestamp > st.lastPushedTimestamp "steps"
          · rw [if_pos hgt, if_pos hgt]
            rfl
          · rw [if_neg hgt, if_neg hgt]
            rfl
        · rw [processMetric_timeseries st [] m config v hreg hgate hsteps hdec]
          rw [pushReadings_fst]
          simp only [envelopeEpochs, hreg, hdec]
          rw [if_neg hgate, if_neg hsteps]
          simp only [List.nil_append, emitted, emittedTs, List.map_map]
          rfl

theorem pushMetricsBatch_global (ms : List Metric) :
    ∀ st : PushState, (pushMetricsBatch ms st).2.globalLatestTimestamp =
      maxList st.globalLatestTimestamp (batchEpochs ms st) := by
  induction ms with
  | nil => intro st; rfl
  | cons m rest ih =>
    intro st
    rw [pushMetricsBatch_cons_snd, ih, processMetric_global st []]
    rw [show batchEpochs (m :: rest) st =
      envelopeEpochs st m ++ batchEpochs rest (processMetric st [] m).2 from rfl]
    rw [maxList_append]

theorem pushMetricsBatch_marks_mono (ms : List Metric) :
    ∀ (st : PushState) (s : String),
      st.lastPushedTimestamp s ≤ (pushMetricsBatch ms st).2.lastPushedTimestamp s := by
  induction ms with
  | nil => intro st s; exact le_refl _
  | cons m rest ih =>
    intro st s
    rw [pushMetricsBatch_cons_snd]
    exact le_trans (processMetric_marks_mono st [] m s) (ih _ s)

theorem pushMetricsBatch_sampleEpochs (ms : List Metric) :
    ∀ st : PushState, (pushMetricsBatch ms st).1.map sampleEpochMs =
      (batchEpochs ms st).map (fun e => [e * 1000]) := by
  induction ms with
  | nil => intro st; rfl
  | cons m rest ih =>
    intro st
    rw [pushMetricsBatch_cons_fst, List.map_append, processMetric_sampleEpochs, ih]
    rw [show batchEpochs (m :: rest) st =
      envelopeEpochs st m ++ batchEpochs rest (processMetric st [] m).2 from rfl]
    rw [List.map_append]

theorem runBatchStates_global (L : List (List Metric)) :
    ∀ st : PushState, (runBatchStates L st).globalLatestTimestamp =
      maxList st.globalLatestTimestamp (seqEpochs L st) := by
  induction L with
  | nil => intro st; rfl
  | cons ms rest ih =>
    intro st
    show (runBatchStates rest (pushMetricsBatch ms st).2).globalLatestTimestamp = _
    rw [ih, pushMetricsBatch_global ms st]
    rw [show seqEpochs (ms :: rest) st =
      batchEpochs ms st ++ seqEpochs rest (pushMetricsBatch ms st).2 from rfl]
    rw [maxList_append]

/-!  Claim theorems. -/

/-- Claim C9 (confirmed): within one batch, the readings of a non-steps
time-series envelope are filtered against the high-water mark as read
once at the start of processing that envelope — so every reading whose
timestamp strictly exceeds that initial mark is forwarded, and two
readings with equal timestamps inside the same envelope are both
forwarded — and afterwards the stored mark for that wire type equals the
maximum (`maxList`, a fold of `max`) of its prior value and the
forwarded readings' timestamps, correct even for unsorted reading lists;
marks of other wire types are untouched. -/
theorem c9_envelope_filter_and_mark (st : PushState) (acc : List TimeSeries) (m : Metric)
    (config : MetricConfig) (v : TimeSeriesMetric)
    (hreg : metricRegistry m.type = some config)
    (hname : ¬ config.prometheusName = "")
    (hkind : config.metricType = "timeseries")
    (hsteps : ¬ m.type = "steps")
    (hdec : m.object.asTimeSeries = some v) :
    (processMetric st acc m).1 =
      acc ++ emitted config.prometheusName (st.lastPushedTimestamp m.type) v.values ∧
    ∀ s, (processMetric st acc m).2.lastPushedTimestamp s =
      if s = m.type then
        maxList (st.lastPushedTimestamp m.type)
          (emittedTs (st.lastPushedTimestamp m.type) v.values)
      else st.lastPushedTimestamp s := by
  have hgate : ¬ (config.prometheusName = "" ∨ config.metricType ≠ "timeseries") := by
    simp [hname, hkind]
  rw [processMetric_timeseries st acc m config v hreg hgate hsteps hdec]
  exact ⟨pushReadings_fst _ _ _ _ _ _, fun s => pushReadings_marks _ _ _ _ _ _ s⟩

/-- Witness for C9 at a concrete input: an `hr` envelope with unsorted
readings at epochs 200, 100, 100 (the last two equal) and mark 0; all
three are forwarded, in list order, and the mark ends at 200. -/
theorem c9_envelope_filter_and_mark_witness :
    metricRegistry "hr" = some ⟨"timeseries", "last", "HEART RATE", "BPM", false,
      "ultrahuman_heart_rate_bpm"⟩ ∧
    mHrDup.object.asTimeSeries = some vHrDup ∧
    (processMetric initialState [] mHrDup).1 =
      [buildTimeSeries "ultrahuman_heart_rate_bpm" 1 200000,
        buildTimeSeries "ultrahuman_heart_rate_bpm" 2 100000,
        buildTimeSeries "ultrahuman_heart_rate_bpm" 3 100000] ∧
    (processMetric initialState [] mHrDup).2.lastPushedTimestamp "hr" = 200 := by
  have h := c9_envelope_filter_and_mark initialState [] mHrDup
    ⟨"timeseries", "last", "HEART RATE", "BPM", false, "ultrahuman_heart_rate_bpm"⟩ vHrDup
    rfl (by decide) rfl (by decide) rfl
  refine ⟨rfl, rfl, ?_, ?_⟩
  · rw [h.1]
    decide
  · rw [h.2 "hr"]
    decide

/-- Claim C1 counterexample: a batch holding two `hr` envelopes whose
readings both carry epoch 10, starting from mark 0.  The claim's
batch-start rule says a reading is forwarded iff its timestamp strictly
exceeds the mark recorded at the start of the batch, so it predicts both
readings (10 > 0) are forwarded; the code forwards only the first —
the second envelope is filtered against the mark re-read at the start of
that envelope, which the first envelope has already raised to 10 — so
the batch holds exactly one sample. -/
theorem c1_batch_start_counterexample :
    initialState.lastPushedTimestamp "hr" = 0 ∧
    vHrA.values = [⟨70, 10⟩] ∧ vHrB.values = [⟨71, 10⟩] ∧
    (pushMetricsBatch [mHrA, mHrB] initialState).1 =
      [buildTimeSeries "ultrahuman_heart_rate_bpm" 70 10000] := by
  decide

/-- Claim C1 (amended): a reading of a non-steps time-series metric is
forwarded iff its timestamp strictly exceeds the mark recorded for its
wire type at the start of processing that reading's envelope (equal to
the batch-start mark whenever the batch holds at most one envelope of
that wire type); in particular a reading whose timestamp equals the mark
is not forwarded.  Across two cycles: writing `M` for the maximum of the
prior mark and cycle 1's forwarded timestamps, every timestamp forwarded
in cycle 1 is at most `M`, `M` is itself a cycle-1 forwarded timestamp
whenever cycle 1 forwarded anything, and cycle 2's envelope of the same
wire type emits exactly the readings with timestamp strictly greater
than `M` — so no sample is forwarded twice. -/
theorem c1_strict_highwater_dedup (st : PushState) (acc : List TimeSeries) (m m2 : Metric)
    (config : MetricConfig) (v w : TimeSeriesMetric)
    (hreg : metricRegistry m.type = some config)
    (hname : ¬ config.prometheusName = "")
    (hkind : config.metricType = "timeseries")
    (hsteps : ¬ m.type = "steps")
    (hdec : m.object.asTimeSeries = some v)
    (hty2 : m2.type = m.type)
    (hdec2 : m2.object.asTimeSeries = some w) :
    (processMetric st acc m).1 =
      acc ++ emitted config.prometheusName (st.lastPushedTimestamp m.type) v.values ∧
    (∀ t ∈ emittedTs (st.lastPushedTimestamp m.type) v.values,
      t ≤ maxList (st.lastPushedTimestamp m.type)
        (emittedTs (st.lastPushedTimestamp m.type) v.values)) ∧
    (emittedTs (st.lastPushedTimestamp m.type) v.values ≠ [] →
      maxList (st.lastPushedTimestamp m.type)
          (emittedTs (st.lastPushedTimestamp m.type) v.values)
        ∈ emittedTs (st.lastPushedTimestamp m.type) v.values) ∧
    (processMetric (processMetric st acc m).2 [] m2).1 =
      emitted config.prometheusName
        (maxList (st.lastPushedTimestamp m.type)
          (emittedTs (st.lastPushedTimestamp m.type) v.values))
        w.values := by
  have hgate : ¬ (config.prometheusName = "" ∨ config.metricType ≠ "timeseries") := by
    simp [hname, hkind]
  have h1 := processMetric_timeseries st acc m config v hreg hgate hsteps hdec
  refine ⟨?_, mem_le_maxList _ _, ?_, ?_⟩
  · rw [h1]
    exact pushReadings_fst _ _ _ _ _ _
  · intro hne
    rcases maxList_eq_or_mem (st.lastPushedTimestamp m.type)
        (emittedTs (st.lastPushedTimestamp m.type) v.values) with he | hmem
    · exfalso
      obtain ⟨t, ht⟩ := List.exists_mem_of_ne_nil _ hne
      have hle := mem_le_maxList (st.lastPushedTimestamp m.type) _ t ht
      rw [he] at hle
      exact absurd (lt_of_mem_emittedTs ht) (not_lt.mpr hle)
    · exact hmem
  · have hmark : (processMetric st acc m).2.lastPushedTimestamp m2.type =
        maxList (st.lastPushedTimestamp m.type)
          (emittedTs (st.lastPushedTimestamp m.type) v.values) := by
      rw [h1, pushReadings_marks, if_pos hty2]
    have hreg2 : metricRegistry m2.type = some config := by
      rw [hty2]
      exact hreg
    have hsteps2 : ¬ m2.type = "steps" := by
      rw [hty2]
      exact hsteps
    have h2 := processMetric_timeseries (processMetric st acc m).2 [] m2 config w
      hreg2 hgate hsteps2 hdec2
    rw [h2, pushReadings_fst, hmark]
    simp

/-- Witness for the amended C1 on the spec's end-to-end scenario:
cycle 1 forwards the `hr` readings at epochs 1000 and 1005 (timestamps
1000000 and 1005000 ms); cycle 2, whose window overlaps by repeating
both readings and adds one at 1010, forwards exactly the reading at
epoch 1010. -/
theorem c1_strict_highwater_dedup_witness :
    metricRegistry "hr" = some ⟨"timeseries", "last", "HEART RATE", "BPM", false,
      "ultrahuman_heart_rate_bpm"⟩ ∧
    (processMetric initialState [] mHr1).1 =
      [buildTimeSeries "ultrahuman_heart_rate_bpm" 70 1000000,
        buildTimeSeries "ultrahuman_heart_rate_bpm" 72 1005000] ∧
    (processMetric (processMetric initialState [] mHr1).2 [] mHr2).1 =
      [buildTimeSeries "ultrahuman_heart_rate_bpm" 75 1010000] := by
  have h := c1_strict_highwater_dedup initialState [] mHr1 mHr2
    ⟨"timeseries", "last", "HEART RATE", "BPM", false, "ultrahuman_heart_rate_bpm"⟩
    vHr1 vHr2 rfl (by decide) rfl (by decide) rfl rfl rfl
  refine ⟨rfl, ?_, ?_⟩
  · rw [h.1]
    decide
  · rw [h.2.2.2]
    decide

/-- Claim C2 (confirmed): for a `steps` envelope, `pushMetrics` is keyed
on the record's day-start timestamp: when the day-start strictly exceeds
the stored `steps` mark it emits exactly one sample with value the
record's running total and timestamp the day-start (in milliseconds) and
sets the mark to the day-start; otherwise it emits nothing and leaves
batch and state unchanged; and resubmitting any `steps` record with an
unchanged day-start — whatever its total — emits nothing. -/
theorem c2_steps_daystart_keyed (st : PushState) (acc acc2 : List TimeSeries) (m : Metric)
    (v : TimeSeriesMetric) (hty : m.type = "steps") (hdec : m.object.asTimeSeries = some v) :
    (v.dayStartTimestamp > st.lastPushedTimestamp "steps" →
      (processMetric st acc m).1 =
        acc ++ [buildTimeSeries "ultrahuman_steps_total" v.total (v.dayStartTimestamp * 1000)] ∧
      (processMetric st acc m).2.lastPushedTimestamp "steps" = v.dayStartTimestamp) ∧
    (¬ v.dayStartTimestamp > st.lastPushedTimestamp "steps" →
      processMetric st acc m = (acc, st)) ∧
    (∀ (m2 : Metric) (v2 : TimeSeriesMetric), m2.type = "steps" →
      m2.object.asTimeSeries = some v2 → v2.dayStartTimestamp = v.dayStartTimestamp →
      (processMetric (processMetric st acc m).2 acc2 m2).1 = acc2) := by
  have hs := processMetric_steps st acc m v hty hdec
  refine ⟨?_, ?_, ?_⟩
  · intro hgt
    rw [hs, if_pos hgt]
    refine ⟨rfl, ?_⟩
    show setMark st.lastPushedTimestamp "steps" v.dayStartTimestamp "steps" = _
    unfold setMark
    rw [if_pos rfl]
  · intro hgt
    rw [hs, if_neg hgt]
  · intro m2 v2 hty2 hdec2 hday
    by_cases hgt : v.dayStartTimestamp > st.lastPushedTimestamp "steps"
    · have hmark : (processMetric st acc m).2.lastPushedTimestamp "steps" =
          v.dayStartTimestamp := by
        rw [hs, if_pos hgt]
        show setMark st.lastPushedTimestamp "steps" v.dayStartTimestamp "steps" = _
        unfold setMark
        rw [if_pos rfl]
      rw [processMetric_steps (processMetric st acc m).2 acc2 m2 v2 hty2 hdec2,
        if_neg (by rw [hmark, hday]; exact lt_irrefl _)]
    · have hst : (processMetric st acc m).2 = st := by
        rw [hs, if_neg hgt]
      rw [hst, processMetric_steps st acc2 m2 v2 hty2 hdec2,
        if_neg (by rw [hday]; exact hgt)]

/-- Witness for C2 on the spec's end-to-end scenario: a `steps` record
with day-start 86400 and total 500 emits one sample `(500, 86400000)`
and raises the `steps` mark to 86400; resubmitting the same record emits
nothing. -/
theorem c2_steps_daystart_keyed_witness :
    (86400 : Int) > initialState.lastPushedTimestamp "steps" ∧
    (processMetric initialState [] mSteps).1 =
      [buildTimeSeries "ultrahuman_steps_total" 500 86400000] ∧
    (processMetric initialState [] mSteps).2.lastPushedTimestamp "steps" = 86400 ∧
    (processMetric (processMetric initialState [] mSteps).2 [] mSteps).1 = [] := by
  have h := c2_steps_daystart_keyed initialState [] [] mSteps vSteps rfl rfl
  refine ⟨by decide, ?_, ?_, h.2.2 mSteps vSteps rfl rfl rfl⟩
  · rw [(h.1 (by decide)).1]
    decide
  · rw [(h.1 (by decide)).2]
    decide

/-- Claim C3 (confirmed): every wire sample a `pushMetrics` batch holds
originates from one of the batch's envelopes, and its millisecond
timestamp is the sensor epoch-seconds value of the decoded record times
1000 — the reading's own timestamp for per-reading metrics, the
day-start for `steps` (see `sampleFromRecord`); the forwarding path has
no other timestamp source, so the poll time is never substituted. -/
theorem c3_sensor_timestamps_preserved (ms : List Metric) (st : PushState) (t : TimeSeries)
    (h : t ∈ (pushMetricsBatch ms st).1) :
    ∃ m, m ∈ ms ∧ sampleFromRecord m t :=
  mem_pushMetricsBatch ms st t h

/-- Witness for C3: the sample forwarded for the `hr` reading at epoch
1000 carries timestamp 1000000 ms and originates from the `hr`
envelope's record. -/
theorem c3_sensor_timestamps_preserved_witness :
    buildTimeSeries "ultrahuman_heart_rate_bpm" 70 1000000
        ∈ (pushMetricsBatch [mHr1] initialState).1 ∧
    ∃ m, m ∈ [mHr1] ∧ sampleFromRecord m
      (buildTimeSeries "ultrahuman_heart_rate_bpm" 70 1000000) :=
  ⟨by decide, c3_sensor_timestamps_preserved [mHr1] initialState _ (by decide)⟩

/-- Claim C4 (confirmed): an envelope whose wire type has no registry
entry, or whose entry is not of the time-series shape kind, or whose
entry has an empty output name, contributes no samples and leaves the
state untouched; and when the batch a call builds is empty, the call
returns success without invoking the remote-write transport. -/
theorem c4_forwarding_gate (st : PushState) (acc : List TimeSeries) (m : Metric)
    (ms : List Metric) (send : Transport) :
    (metricRegistry m.type = none → processMetric st acc m = (acc, st)) ∧
    (∀ config, metricRegistry m.type = some config →
      config.prometheusName = "" ∨ config.metricType ≠ "timeseries" →
      processMetric st acc m = (acc, st)) ∧
    ((pushMetricsBatch ms st).1 = [] →
      pushMetrics (some send) ms st =
        ⟨Except.ok (), (pushMetricsBatch ms st).2, false⟩) := by
  refine ⟨processMetric_no_entry st acc m,
    fun config hreg h => processMetric_not_forwarded st acc m config hreg h,
    fun hempty => ?_⟩
  simp only [pushMetrics, hempty, List.isEmpty_nil, if_true]

/-- Witness for C4: the unregistered envelope and the scalar `recovery`
envelope contribute nothing, the resulting batch is empty, and the call
reports success with no network call. -/
theorem c4_forwarding_gate_witness :
    metricRegistry "unknown_type" = none ∧
    processMetric initialState [] mUnknown = ([], initialState) ∧
    metricRegistry "recovery" = some ⟨"simple", "", "RECOVERY", "", false,
      "ultrahuman_recovery"⟩ ∧
    ("ultrahuman_recovery" = "" ∨ "simple" ≠ "timeseries") ∧
    processMetric initialState [] mRecNull = ([], initialState) ∧
    (pushMetricsBatch [mUnknown, mRecNull] initialState).1 = [] ∧
    pushMetrics (some okTransport) [mUnknown, mRecNull] initialState =
      ⟨Except.ok (), (pushMetricsBatch [mUnknown, mRecNull] initialState).2, false⟩ := by
  refine ⟨rfl, ?_, rfl, by decide, ?_, by decide, ?_⟩
  · exact (c4_forwarding_gate initialState [] mUnknown [] okTransport).1 rfl
  · exact (c4_forwarding_gate initialState [] mRecNull [] okTransport).2.1 _ rfl (by decide)
  · exact (c4_forwarding_gate initialState [] mUnknown [mUnknown, mRecNull]
      okTransport).2.2 (by decide)

/-- Claim C5 counterexample: the claim's final clause says the rendering
of a present-but-null scalar value and the rendering of a malformed
scalar payload are distinguishable outcomes; on the code both render as
the very same string "null" in `getMetricValue` and as no output at all
in `displayMetric`, at the concrete `recovery` envelopes below. -/
theorem c5_null_rendering_counterexample :
    mRecNull.object.asSimple = some ⟨none, "RECOVERY", 0⟩ ∧
    mRecBad.object.asSimple = none ∧
    getMetricValue [mRecNull] "recovery" = "null" ∧
    getMetricValue [mRecBad] "recovery" = "null" ∧
    displayMetric mRecNull = [] ∧
    displayMetric mRecBad = [] := by
  decide

/-- Claim C5 (amended): a scalar envelope whose value field is present
but null decodes to a record with an absent value (`some` record with
`value = none`), a decode outcome distinct from an unmarshal failure
(`none`); but the two render identically — `getMetricValue` returns the
string "null" and `displayMetric` prints nothing in both cases — and
neither is ever rendered or forwarded as the number zero: the rendering
is the fixed string "null", not the numeral a zero value would produce,
and a scalar envelope contributes no wire sample at all. -/
theorem c5_null_scalar_no_data (metricType0 : String) (config : MetricConfig) (m : Metric)
    (rest : List Metric) (st : PushState) (acc : List TimeSeries)
    (hreg : metricRegistry metricType0 = some config)
    (hkind : config.metricType = "simple")
    (hty : m.type = metricType0) :
    (∀ v, m.object.asSimple = some v → v.value = none →
      getMetricValue (m :: rest) metricType0 = "null" ∧ displayMetric m = []) ∧
    (m.object.asSimple = none →
      getMetricValue (m :: rest) metricType0 = "null" ∧ displayMetric m = []) ∧
    processMetric st acc m = (acc, st) ∧
    "null" ≠ formatFloat0 0 ∧ "null" ≠ formatFloat1 0 := by
  have hsleep : ¬ metricType0 = "sleep" := by
    intro he
    rw [he, show metricRegistry "sleep" = none from rfl] at hreg
    exact Option.noConfusion hreg
  have hmotion : ¬ metricType0 = "motion" := by
    intro he
    rw [he, show metricRegistry "motion" = none from rfl] at hreg
    exact Option.noConfusion hreg
  have hsteps0 : ¬ metricType0 = "steps" := by
    intro he
    rw [he] at hreg
    have h1 : some (⟨"timeseries", "total", "STEPS", "", false,
        "ultrahuman_steps_total"⟩ : MetricConfig) = some config := by
      rw [← hreg]
      exact rfl
    have h2 := Option.some.inj h1
    rw [← h2] at hkind
    exact absurd hkind (by decide)
  have hnotts : ¬ config.metricType = "timeseries" := by
    rw [hkind]
    decide
  have hgetNull : ∀ ob : RawObject, ob.asSimple = none ∨
      (∃ v, ob.asSimple = some v ∧ v.value = none) →
      getMetricValue (⟨m.type, ob⟩ :: rest) metricType0 = "null" := by
    intro ob hob
    simp only [getMetricValue]
    rw [if_neg (show ¬ ((⟨m.type, ob⟩ : Metric).type ≠ metricType0) from fun hn => hn hty)]
    rw [if_neg hsleep, if_neg hmotion]
    simp only [hreg]
    rw [if_neg hnotts, if_pos hkind]
    rcases hob with hob | ⟨v, hv, hval⟩
    · simp only [hob]
    · simp only [hv, hval]
  have hdispNull : ∀ ob : RawObject, ob.asSimple = none ∨
      (∃ v, ob.asSimple = some v ∧ v.value = none) →
      displayMetric ⟨m.type, ob⟩ = [] := by
    intro ob hob
    simp only [displayMetric]
    rw [if_neg (show ¬ ((⟨m.type, ob⟩ : Metric).type = "sleep") from by
        rw [show (⟨m.type, ob⟩ : Metric).type = metricType0 from hty]; exact hsleep)]
    rw [if_neg (show ¬ ((⟨m.type, ob⟩ : Metric).type = "motion") from by
        rw [show (⟨m.type, ob⟩ : Metric).type = metricType0 from hty]; exact hmotion)]
    rw [if_neg (show ¬ ((⟨m.type, ob⟩ : Metric).type = "steps") from by
        rw [show (⟨m.type, ob⟩ : Metric).type = metricType0 from hty]; exact hsteps0)]
    rw [show (⟨m.type, ob⟩ : Metric).type = metricType0 from hty]
    simp only [hreg]
    rw [if_neg hnotts, if_pos hkind]
    rcases hob with hob | ⟨v, hv, hval⟩
    · simp only [hob]
    · simp only [hv, hval]
  have hm : m = ⟨m.type, m.object⟩ := rfl
  refine ⟨fun v hv hval => ?_, fun hnone => ?_, ?_, by decide, by decide⟩
  · constructor
    · rw [hm]
      exact hgetNull m.object (Or.inr ⟨v, hv, hval⟩)
    · rw [hm]
      exact hdispNull m.object (Or.inr ⟨v, hv, hval⟩)
  · constructor
    · rw [hm]
      exact hgetNull m.object (Or.inl hnone)
    · rw [hm]
      exact hdispNull m.object (Or.inl hnone)
  · refine processMetric_not_forwarded st acc m config ?_ (Or.inr hnotts)
    rw [hty]
    exact hreg

/-- Witness for the amended C5 at the concrete `recovery` envelope with
a present-but-null value. -/
theorem c5_null_scalar_no_data_witness :
    metricRegistry "recovery" = some ⟨"simple", "", "RECOVERY", "", false,
      "ultrahuman_recovery"⟩ ∧
    mRecNull.object.asSimple = some ⟨none, "RECOVERY", 0⟩ ∧
    getMetricValue [mRecNull] "recovery" = "null" ∧
    displayMetric mRecNull = [] ∧
    processMetric initialState [] mRecNull = ([], initialState) ∧
    "null" ≠ formatFloat0 0 := by
  have h := c5_null_scalar_no_data "recovery"
    ⟨"simple", "", "RECOVERY", "", false, "ultrahuman_recovery"⟩ mRecNull [] initialState []
    rfl rfl rfl
  have hnv := h.1 ⟨none, "RECOVERY", 0⟩ rfl rfl
  exact ⟨rfl, rfl, hnv.1, hnv.2, h.2.2.1, h.2.2.2.1⟩

/-- Claim C6 (confirmed): the final state of a `pushMetrics` call with a
client equals the state computed while building the batch, whatever the
transport returns — the high-water marks are committed before the write,
so a failing write rolls nothing back and any two transports leave
identical marks; the marks are monotonically non-decreasing across the
batch; and the call's result is exactly the transport's verdict on the
non-empty batch (success on an empty one). -/
theorem c6_marks_survive_transport_failure (send send2 : Transport) (ms : List Metric)
    (st : PushState) :
    (pushMetrics (some send) ms st).finalState = (pushMetricsBatch ms st).2 ∧
    (pushMetrics (some send) ms st).finalState = (pushMetrics (some send2) ms st).finalState ∧
    (∀ s, st.lastPushedTimestamp s ≤
      (pushMetrics (some send) ms st).finalState.lastPushedTimestamp s) ∧
    (pushMetrics (some send) ms st).result =
      (if (pushMetricsBatch ms st).1.isEmpty then Except.ok ()
        else send (pushMetricsBatch ms st).1) := by
  have hfs : ∀ tr : Transport, (pushMetrics (some tr) ms st).finalState =
      (pushMetricsBatch ms st).2 := by
    intro tr
    simp only [pushMetrics]
    by_cases h : (pushMetricsBatch ms st).1.isEmpty = true
    · rw [if_pos h]
    · rw [if_neg h]
  refine ⟨hfs send, by rw [hfs send, hfs send2], fun s => ?_, ?_⟩
  · rw [hfs send]
    exact pushMetricsBatch_marks_mono ms st s
  · simp only [pushMetrics]
    by_cases h : (pushMetricsBatch ms st).1.isEmpty = true
    · rw [if_pos h, if_pos h]
    · rw [if_neg h, if_neg h]

/-- Claim C7 (confirmed): a composite-sleep envelope whose decoded
record has both the score and the total-sleep fields absent is
suppressed by the renderer: `displayMetric` prints nothing — no section
header and no field lines. -/
theorem c7_empty_sleep_suppressed (m : Metric) (v : SleepMetric)
    (hty : m.type = "sleep") (hdec : m.object.asSleep = some v)
    (hs : v.score = none) (ht : v.totalSleep = none) :
    displayMetric m = [] := by
  simp only [displayMetric]
  rw [if_pos hty]
  simp only [hdec]
  rw [if_pos ⟨hs, ht⟩]

/-- Witness for C7 at a concrete sleep envelope whose record carries
only efficiency and time-in-bed. -/
theorem c7_empty_sleep_suppressed_witness :
    mSleepEmpty.type = "sleep" ∧
    mSleepEmpty.object.asSleep =
      some ⟨86400, none, none, some 90, some 400, none, none, none⟩ ∧
    displayMetric mSleepEmpty = [] :=
  ⟨rfl, rfl, c7_empty_sleep_suppressed mSleepEmpty
    ⟨86400, none, none, some 90, some 400, none, none, none⟩ rfl rfl rfl rfl⟩

/-- Claim C8 (confirmed): the global latest-timestamp scalar is
monotonically non-decreasing under `pushMetrics`, and after a batch —
or any sequence of batches — it equals the fold of `max` of its prior
value over the epoch-seconds of all forwarded samples (`batchEpochs`,
which pairs one-to-one with the batch's samples, each sample's
millisecond timestamp being its epoch times 1000). -/
theorem c8_global_timestamp_monotone_max :
    (∀ (ms : List Metric) (st : PushState),
      st.globalLatestTimestamp ≤ (pushMetricsBatch ms st).2.globalLatestTimestamp) ∧
    (∀ (ms : List Metric) (st : PushState),
      (pushMetricsBatch ms st).2.globalLatestTimestamp =
        maxList st.globalLatestTimestamp (batchEpochs ms st)) ∧
    (∀ (ms : List Metric) (st : PushState),
      (pushMetricsBatch ms st).1.map sampleEpochMs =
        (batchEpochs ms st).map (fun e => [e * 1000])) ∧
    (∀ (L : List (List Metric)) (st : PushState),
      (runBatchStates L st).globalLatestTimestamp =
        maxList st.globalLatestTimestamp (seqEpochs L st) ∧
      st.globalLatestTimestamp ≤ (runBatchStates L st).globalLatestTimestamp) := by
  refine ⟨fun ms st => ?_, fun ms st => pushMetricsBatch_global ms st,
    fun ms st => pushMetricsBatch_sampleEpochs ms st,
    fun L st => ⟨runBatchStates_global L st, ?_⟩⟩
  · rw [pushMetricsBatch_global]
    exact maxList_le_self _ _
  · rw [runBatchStates_global]
    exact maxList_le_self _ _

/-- Claim C10 (confirmed): in server mode, one fetch-and-push cycle on a
response without an API error pushes exactly the metrics of the first
date the map iteration yields and then stops — the outcome does not
depend on the remaining dates' entries, which are not forwarded in that
cycle. -/
theorem c10_first_date_only (resp : APIResponse) (client : Option Transport) (st : PushState)
    (d : String) (ms : List Metric) (rest : List (String × List Metric))
    (herr : resp.error = none) (hm : resp.metrics = (d, ms) :: rest) :
    (fetchAndPushMetrics resp client st).2 = (pushMetrics client ms st).finalState ∧
    ((pushMetrics client ms st).result = Except.ok () →
      fetchAndPushMetrics resp client st =
        (Except.ok (), (pushMetrics client ms st).finalState)) ∧
    (∀ e, (pushMetrics client ms st).result = Except.error e →
      fetchAndPushMetrics resp client st =
        (Except.error ("push metrics: " ++ e), (pushMetrics client ms st).finalState)) := by
  simp only [fetchAndPushMetrics, herr, hm]
  refine ⟨?_, ?_, ?_⟩
  · cases hres : (pushMetrics client ms st).result with
    | error e => simp only [hres]
    | ok u => simp only [hres]
  · intro hok
    simp only [hok]
  · intro e herr2
    simp only [herr2]

/-- Witness for C10 on a response carrying two dates: the cycle's
outcome equals the push of the first date's metrics alone. -/
theorem c10_first_date_only_witness :
    respTwoDates.error = none ∧
    respTwoDates.metrics = [("2026-10-10", [mHr1]), ("2026-10-11", [mSteps])] ∧
    (fetchAndPushMetrics respTwoDates (some okTransport) initialState).2 =
      (pushMetrics (some okTransport) [mHr1] initialState).finalState ∧
    fetchAndPushMetrics respTwoDates (some okTransport) initialState =
      (Except.ok (), (pushMetrics (some okTransport) [mHr1] initialState).finalState) := by
  have h := c10_first_date_only respTwoDates (some okTransport) initialState
    "2026-10-10" [mHr1] [("2026-10-11", [mSteps])] rfl rfl
  exact ⟨rfl, rfl, h.1, h.2.1 rfl⟩

end UhRing
